import Mathlib

/-!
Verification of the smol-agent backend pipeline against its specification.

The Python sources are shallowly embedded as executable Lean functions:

* string helpers mirror Python's `str.strip`, `str.upper`, `str.lower`,
  `str.split` and the `in` substring test;
* `route_request` and `detect_language` embed
  `backend/src/agents/router_agent.py`;
* `generate_code` / `handle_language_response` embed the pending-task state
  machine of `backend/src/agents/code_agent.py`, and `handle_legacy_request`
  embeds the dispatch logic of `backend/app.py`;
* `Store`, `insertMsg`, `add_message` embed the operations performed on
  SQLite by `backend/src/database/conversation.py` and by the raw SQL in
  `backend/src/routes/chat_streaming.py`, with `datetime('now')` /
  `CURRENT_TIMESTAMP` modelled by a logical clock that advances on every
  insert;
* `streamRun` embeds the `generate()` generator of the `/stream` route in
  `backend/src/routes/chat_streaming.py`.  The background generation thread
  joined through `response_ready.wait(timeout=10)` is modelled by an
  environment `Env` recording the values of `full_response` and
  `response_error` observed at the join point, the number of thinking steps
  emitted before the early-exit check fires, and whether the final
  persistence step raises.  Emission faults (client disconnects) are out of
  scope of the embedding.
-/

set_option maxRecDepth 10000

/-! ## Python string primitives -/

/-- Python whitespace characters as used by `str.strip()` / `str.split()`. -/
def isPySpace (c : Char) : Bool :=
  c == ' ' || c == '\t' || c == '\n' || c == '\r' || c == '\x0b' || c == '\x0c'

/-- `begins needle hay` : `hay` starts with `needle`. -/
def begins : List Char → List Char → Bool
  | [], _ => true
  | _ :: _, [] => false
  | a :: as, b :: bs => a == b && begins as bs

/-- Python's substring test `needle in hay`. -/
def containsSub : List Char → List Char → Bool
  | [], needle => needle.isEmpty
  | h :: t, needle => begins needle (h :: t) || containsSub t needle

/-- Strip leading Python whitespace. -/
def stripLeft (l : List Char) : List Char := l.dropWhile isPySpace

/-- Strip trailing Python whitespace. -/
def stripRight (l : List Char) : List Char :=
  (l.reverse.dropWhile isPySpace).reverse

/-- Python `str.strip()` on character lists. -/
def pyStripL (l : List Char) : List Char := stripRight (stripLeft l)

/-- Python `str.strip()`. -/
def pyStrip (s : String) : String := ⟨pyStripL s.data⟩

/-- Python `str.lower()` (ASCII). -/
def pyLower (s : String) : String := ⟨s.data.map Char.toLower⟩

/-- Python `str.upper()` (ASCII). -/
def pyUpper (s : String) : String := ⟨s.data.map Char.toUpper⟩

/-- Worker for `pyWordsL`; `cur` holds the current word reversed. -/
def wordsAux (cur : List Char) : List Char → List (List Char)
  | [] => if cur.isEmpty then [] else [cur.reverse]
  | c :: cs =>
    if isPySpace c then
      if cur.isEmpty then wordsAux [] cs
      else cur.reverse :: wordsAux [] cs
    else wordsAux (c :: cur) cs

/-- Python `str.split()` with no argument: split on whitespace runs,
dropping empty fields. -/
def pyWordsL (l : List Char) : List (List Char) := wordsAux [] l

/-- Concatenate a list of strings (no separator). -/
def strConcat (ss : List String) : String := ⟨(ss.map String.data).flatten⟩

/-! ## Intent router — `backend/src/agents/router_agent.py`

`route_request` and `detect_language` take the raw text returned by the
backing model (`generate_response`) as input; the model call itself is the
external generation capability and is a parameter here. -/

/-- `RouterAgent.route_request` response parsing (lines 26-31):
upper-case the stripped model reply and return `"code"` exactly when it
contains `CODE_GENERATION` or `CODE`, else `"chat"`. -/
def route_request (response : String) : String :=
  let response_clean := pyUpper (pyStrip response)
  if containsSub response_clean.data "CODE_GENERATION".data
      || containsSub response_clean.data "CODE".data then "code"
  else "chat"

/-- The code marker the spec's tie-break policy keys on: the cleaned
classifier output contains `CODE`. -/
def hasCodeMarker (response : String) : Bool :=
  containsSub (pyUpper (pyStrip response)).data "CODE".data

/-- `LanguageDetectorAgent`'s language map (lines 58-76), in Python dict
insertion order. -/
def language_map : List (String × String) :=
  [("python", "python"), ("py", "python"),
   ("javascript", "javascript"), ("js", "javascript"),
   ("typescript", "typescript"), ("ts", "typescript"),
   ("java", "java"), ("cpp", "cpp"), ("c++", "cpp"), ("c", "c"),
   ("rust", "rust"), ("go", "go"), ("golang", "go"),
   ("ruby", "ruby"), ("php", "php"), ("swift", "swift"),
   ("kotlin", "kotlin")]

/-- `LanguageDetectorAgent.detect_language` response parsing (lines 54-82):
lower-case the stripped model reply, scan the map in insertion order for the
first key occurring as a substring, else return `UNCLEAR`. -/
def detect_language (response : String) : String :=
  let response_clean := pyLower (pyStrip response)
  match language_map.find? (fun kv => containsSub response_clean.data kv.1.data) with
  | some kv => kv.2
  | none => "UNCLEAR"

/-! ### Substring monotonicity, for the `route_request` claim -/

theorem begins_of_begins_append {a b l : List Char}
    (h : begins (a ++ b) l = true) : begins a l = true := by
  induction a generalizing l with
  | nil => rfl
  | cons x xs ih =>
    cases l with
    | nil => simp [begins] at h
    | cons y ys =>
      simp only [List.cons_append, begins, Bool.and_eq_true] at h ⊢
      exact ⟨h.1, ih h.2⟩

theorem containsSub_of_append {hay a b : List Char}
    (h : containsSub hay (a ++ b) = true) : containsSub hay a = true := by
  induction hay with
  | nil =>
    simp only [containsSub, List.isEmpty_eq_true, List.append_eq_nil] at h ⊢
    exact h.1
  | cons x xs ih =>
    simp only [containsSub, Bool.or_eq_true] at h ⊢
    rcases h with h | h
    · exact Or.inl (begins_of_begins_append h)
    · exact Or.inr (ih h)

/-- C8: the routing decision of `route_request` is binary and defaults to
CHAT: it returns `"code"` exactly when the cleaned classifier output
contains the code marker `CODE` (which also subsumes `CODE_GENERATION`),
and `"chat"` for every other output, so an ambiguous reply is classified
CHAT, never STRUCTURED_TASK. -/
theorem C8_route_request_binary_default_chat (response : String) :
    (route_request response = "code" ∨ route_request response = "chat") ∧
    (route_request response = "code" ↔ hasCodeMarker response = true) ∧
    (route_request response = "chat" ↔ hasCodeMarker response = false) := by
  have hsub : containsSub (pyUpper (pyStrip response)).data "CODE_GENERATION".data = true →
      containsSub (pyUpper (pyStrip response)).data "CODE".data = true := by
    intro h
    have hdec : "CODE_GENERATION".data = "CODE".data ++ "_GENERATION".data := by decide
    exact containsSub_of_append (hdec ▸ h)
  unfold route_request hasCodeMarker
  by_cases h : containsSub (pyUpper (pyStrip response)).data "CODE".data = true
  · have : (containsSub (pyUpper (pyStrip response)).data "CODE_GENERATION".data
        || containsSub (pyUpper (pyStrip response)).data "CODE".data) = true := by
      simp [h]
    simp [this, h]
  · have hg : containsSub (pyUpper (pyStrip response)).data "CODE_GENERATION".data = false := by
      cases hx : containsSub (pyUpper (pyStrip response)).data "CODE_GENERATION".data
      · rfl
      · exact absurd (hsub hx) h
    have hc : containsSub (pyUpper (pyStrip response)).data "CODE".data = false := by
      cases hx : containsSub (pyUpper (pyStrip response)).data "CODE".data
      · rfl
      · exact absurd hx h
    simp [hg, hc]

/-- C9: the claim says `detect_language` returns `UNCLEAR` whenever the
detector backend's reply is the literal text `UNCLEAR`.  The code instead
matches the single-character map key `"c"` against the substring `c` of
`unclear` and returns the language `"c"`.  (On an actual language reply such
as `Python` it does return the canonical map name.) -/
theorem C9_detect_language_unclear_returns_c :
    detect_language "UNCLEAR" = "c" ∧
    detect_language "UNCLEAR" ≠ "UNCLEAR" ∧
    detect_language "Python" = "python" := by decide

/-! ## Code agent pending-task state — `backend/src/agents/code_agent.py`

The mutable fields `pending_language_request` / `pending_task` of
`CodeAgent` form the Pending-Clarification state; `generate_code` and
`handle_language_response` are its transitions.  The backend text generation
inside `generate_code` is the external capability; what matters here is
which task/language pair generation is invoked with, recorded in
`CodeResult.generated`. -/

/-- Python truthiness of an optional string (`None` and `''` are falsy). -/
def pyTruthy : Option String → Bool
  | some s => !s.data.isEmpty
  | none => false

structure CodeAgentState where
  pending_language_request : Bool
  pending_task : Option String
  deriving DecidableEq, Repr

inductive CodeResult where
  /-- generation was invoked with this task text and language parameter -/
  | generated (task language : String)
  /-- the agent asked the user for the missing language -/
  | askLanguage (task : String)
  /-- `handle_language_response` found no pending code request -/
  | noPending
  deriving DecidableEq, Repr

/-- `CodeAgent.generate_code` (lines 11-43): with a truthy language, invoke
generation; otherwise ask for the language and record the pending task. -/
def generate_code (st : CodeAgentState) (task : String) (language : Option String) :
    CodeResult × CodeAgentState :=
  if pyTruthy language then
    (CodeResult.generated task (language.getD ""), st)
  else
    (CodeResult.askLanguage task,
     { st with pending_language_request := true, pending_task := some task })

/-- `CodeAgent.handle_language_response` (lines 45-56): when a pending task
exists and a language request is outstanding, clear both and invoke
generation with the stored task and the lower-cased, stripped answer. -/
def handle_language_response (st : CodeAgentState) (language : String) :
    CodeResult × CodeAgentState :=
  if pyTruthy st.pending_task && st.pending_language_request then
    generate_code { pending_language_request := false, pending_task := none }
      (st.pending_task.getD "") (some (pyStrip (pyLower language)))
  else
    (CodeResult.noPending, st)

/-! ## Legacy pipeline dispatch — `backend/app.py`, `handle_legacy_request`

Lines 274-304: every inbound message is routed afresh
(`agents['router'].detect(message)`), the chat or code agent is chosen from
the detection type, and the agent processes the message itself.  The router
call on the backing model is the external capability, passed as an oracle.
Nothing in this function reads or writes the code agent's pending state, and
`handle_language_response` has no caller anywhere in the repository. -/

structure Detection where
  type : String
  deriving DecidableEq, Repr

inductive AgentCall where
  | chat (message : String)
  | code (message : String)
  deriving DecidableEq, Repr

/-- `handle_legacy_request`, restricted to its routing/dispatch skeleton:
returns the detection it obtained for the message, the agent type label, and
the call made to the chosen agent. -/
def handle_legacy_request (router : String → Detection) (message : String) :
    Detection × String × AgentCall :=
  let detection := router message
  if detection.type == "code" then (detection, "code", AgentCall.code message)
  else (detection, "chat", AgentCall.chat message)

/-- C3: after M1 = "write a sorter" left the code agent awaiting a language
(pending entry stored), the pipeline handles the follow-up M2 = "python" by
routing it afresh and dispatching M2 itself to the routed agent — the
pending entry is neither consumed nor cleared, because
`handle_legacy_request` never invokes `handle_language_response`.  The
uncalled `handle_language_response` would have consumed M2 correctly, as the
final two conjuncts show. -/
theorem C3_followup_message_rerouted :
    (generate_code ⟨false, none⟩ "write a sorter" none
      = (CodeResult.askLanguage "write a sorter", ⟨true, some "write a sorter"⟩)) ∧
    (handle_legacy_request (fun m => if m == "python" then ⟨"chat"⟩ else ⟨"code"⟩) "python"
      = (⟨"chat"⟩, "chat", AgentCall.chat "python")) ∧
    (handle_legacy_request (fun _ => ⟨"code"⟩) "python"
      = (⟨"code"⟩, "code", AgentCall.code "python")) ∧
    (handle_language_response ⟨true, some "write a sorter"⟩ "python"
      = (CodeResult.generated "write a sorter" "python", ⟨false, none⟩)) := by decide

/-! ## Conversation store — SQLite operations

`Store` models the `conversations` and `messages` tables.  SQLite's
`datetime('now')` / `CURRENT_TIMESTAMP` is a logical clock advancing on
every statement; `AUTOINCREMENT` conversation ids come from `nextConvId`.
Foreign keys are not enforced (SQLite default), so a message insert succeeds
for any conversation id — exactly as in the source. -/

structure Message where
  conversation_id : Nat
  role : String
  content : String
  created_at : Nat
  deriving DecidableEq, Repr

structure Conv where
  id : Nat
  user_id : Nat
  title : String
  created_at : Nat
  updated_at : Nat
  deriving DecidableEq, Repr

structure Store where
  convs : List Conv
  msgs : List Message
  nextConvId : Nat
  clock : Nat
  deriving DecidableEq, Repr

/-- A bare `INSERT INTO messages ...` as issued by the streaming route
(`chat_streaming.py` lines 149-155 and 238-243): appends the message row
and touches nothing else. -/
def insertMsg (st : Store) (cid : Nat) (role content : String) : Store :=
  { st with msgs := st.msgs ++ [⟨cid, role, content, st.clock⟩],
            clock := st.clock + 1 }

/-- `Conversation.add_message` (`conversation.py` lines 126-142): insert the
message row, then update the owning conversation's `updated_at` to the
current timestamp. -/
def add_message (st : Store) (cid : Nat) (role content : String) : Store :=
  let st1 := insertMsg st cid role content
  { st1 with
      convs := st1.convs.map (fun c =>
        if c.id == cid then { c with updated_at := st1.clock } else c),
      clock := st1.clock + 1 }

/-! ## Streaming session controller — `chat_streaming.py`, `generate()` -/

/-- One SSE frame `data: {json...}`; the terminal `data: [DONE]` sentinel is
the frame of type `"done"`. -/
structure Frame where
  type : String
  content : String
  deriving DecidableEq, Repr

def mkFrame (t c : String) : Frame := ⟨t, c⟩

/-- `_generate_thinking_steps` (lines 69-108): a deterministic label list
chosen from keyword/length heuristics on the lower-cased message. -/
def thinkingSteps (message : String) : List String :=
  let ml := message.data.map Char.toLower
  if ["code", "function", "script", "program", "algorithm"].any
      (fun w => containsSub ml w.data) then
    ["Analyzing code requirements", "Planning implementation approach",
     "Preparing code solution"]
  else if ["calculate", "compute", "math", "solve", "equation"].any
      (fun w => containsSub ml w.data) then
    ["Analyzing mathematical problem", "Calculating solution"]
  else if ["explain", "what is", "how does", "why", "teach", "learn"].any
      (fun w => containsSub ml w.data) then
    ["Understanding the question", "Gathering relevant information",
     "Structuring explanation"]
  else if message.data.length > 100 then
    ["Analyzing query components", "Organizing information",
     "Preparing comprehensive response"]
  else
    ["Processing your question", "Formulating response"]

/-- Environment of one run of `generate()`: the state of the background
generation thread as observed at the `response_ready.wait(timeout=10)` join
(`genError` = the `response_error` slot, `genText` = the `full_response`
buffer, already passed through `clean_llm_response`), how many thinking
steps the pacing loop emits before `response_ready.is_set()` breaks it
(`stepBudget`; the loop always emits at least one step and at most all of
them), and whether the assistant-message persistence raises. -/
structure Env where
  genError : Option String
  genText : String
  persistError : Option String
  stepBudget : Nat

structure CreateOut where
  store : Store
  cid : Nat
  frames : List Frame

/-- Lines 136-146: create the conversation when no id was supplied (emitting
the early `metadata` frame); otherwise use the given id unchecked — there is
no ownership lookup on this route. -/
def createPhase (uid : Nat) (convId : Option Nat) (st : Store) : CreateOut :=
  match convId with
  | some c => ⟨st, c, []⟩
  | none =>
    ⟨{ st with
         convs := st.convs ++ [⟨st.nextConvId, uid, "New Conversation", st.clock, st.clock⟩],
         nextConvId := st.nextConvId + 1,
         clock := st.clock + 1 },
     st.nextConvId,
     [mkFrame "metadata" ""]⟩

/-- The thinking-step frames: a nonempty prefix of the step labels
(lines 207-217), its length set by when the early-exit check fires. -/
def stepFrames (env : Env) (message : String) : List Frame :=
  let steps := thinkingSteps message
  (steps.take (min (max 1 env.stepBudget) steps.length)).map
    (fun s => mkFrame "thinking_step" s)

structure RunOut where
  frames : List Frame
  store : Store
  deriving Repr

/-- The words streamed for a generated text: `full_response.split()`. -/
def runWords (env : Env) : List (List Char) := pyWordsL env.genText.data

/-- `response_content` accumulated by the word loop (lines 229-234): each
word is emitted and stored with one trailing space. -/
def respContent (env : Env) : List Char :=
  ((runWords env).map (fun w => w ++ [' '])).flatten

/-- The `generate()` generator of `stream_chat` (lines 124-251), as the pair
of its emitted frame sequence and the final store state. -/
def streamRun (env : Env) (uid : Nat) (convId : Option Nat) (message : String)
    (st : Store) : RunOut :=
  let c := createPhase uid convId st
  let st2 := insertMsg c.store c.cid "user" message
  let pre := c.frames ++ [mkFrame "thinking_start" ""] ++ stepFrames env message
  match env.genError with
  | some e => ⟨pre ++ [mkFrame "error" e, mkFrame "done" ""], st2⟩
  | none =>
    let fragFrames := (runWords env).map
      (fun w => mkFrame "response" ⟨w ++ [' ']⟩)
    let body := [mkFrame "thinking_complete" ""] ++ fragFrames
    if (pyStripL (respContent env)).isEmpty then
      ⟨pre ++ body ++ [mkFrame "done" ""], st2⟩
    else
      match env.persistError with
      | some e => ⟨pre ++ body ++ [mkFrame "error" e, mkFrame "done" ""], st2⟩
      | none =>
        ⟨pre ++ body ++ [mkFrame "done" ""],
         insertMsg st2 c.cid "assistant" ⟨pyStripL (respContent env)⟩⟩

/-- Frames of one run. -/
def runFrames (env : Env) (uid : Nat) (convId : Option Nat) (message : String)
    (st : Store) : List Frame :=
  (streamRun env uid convId message st).frames

/-- Messages appended to the store by one run. -/
def runAppended (env : Env) (uid : Nat) (convId : Option Nat) (message : String)
    (st : Store) : List Message :=
  (streamRun env uid convId message st).store.msgs.drop st.msgs.length

/-- Number of frames of a given type. -/
def countType (fs : List Frame) (t : String) : Nat :=
  (fs.filter (fun f => f.type == t)).length

/-- Contents of the response-fragment frames, in emission order. -/
def fragContents (fs : List Frame) : List String :=
  fs.filterMap (fun f => if f.type == "response" then some f.content else none)

/-! ## Structural decomposition of a streaming run -/

/-- The frames every run emits before the generation join: the optional
`metadata` creation frame, `thinking_start`, and the thinking steps. -/
def preOfRun (env : Env) (uid : Nat) (convId : Option Nat) (message : String)
    (st : Store) : List Frame :=
  (createPhase uid convId st).frames ++ [mkFrame "thinking_start" ""]
    ++ stepFrames env message

/-- The response-fragment frames of a run: one per word, with a trailing
space. -/
def fragFramesOf (env : Env) : List Frame :=
  (runWords env).map (fun w => mkFrame "response" ⟨w ++ [' ']⟩)

/-- The user message row a run inserts. -/
def userMsgOf (uid : Nat) (convId : Option Nat) (message : String) (st : Store) :
    Message :=
  ⟨(createPhase uid convId st).cid, "user", message, (createPhase uid convId st).store.clock⟩

/-- The assistant message row a successful run inserts: the stripped
accumulated response content. -/
def asstMsgOf (env : Env) (uid : Nat) (convId : Option Nat) (message : String)
    (st : Store) : Message :=
  ⟨(createPhase uid convId st).cid, "assistant", ⟨pyStripL (respContent env)⟩,
   (createPhase uid convId st).store.clock + 1⟩

theorem createPhase_msgs (uid : Nat) (convId : Option Nat) (st : Store) :
    (createPhase uid convId st).store.msgs = st.msgs := by
  cases convId <;> rfl

theorem drop_append_singleton {α : Type} (l : List α) (a : α) :
    (l ++ [a]).drop l.length = [a] := by
  simp

theorem drop_append_pair {α : Type} (l : List α) (a b : α) :
    ((l ++ [a]) ++ [b]).drop l.length = [a, b] := by
  rw [List.append_assoc]
  simp

/-- Every streaming run takes exactly one of four shapes: generation error;
blank cleaned response; persistence failure; or full success. -/
theorem run_shape (env : Env) (uid : Nat) (convId : Option Nat) (message : String)
    (st : Store) :
    (∃ e, env.genError = some e ∧
      runFrames env uid convId message st
        = preOfRun env uid convId message st ++ [mkFrame "error" e, mkFrame "done" ""] ∧
      runAppended env uid convId message st = [userMsgOf uid convId message st]) ∨
    (env.genError = none ∧ pyStripL (respContent env) = [] ∧
      runFrames env uid convId message st
        = preOfRun env uid convId message st ++ [mkFrame "thinking_complete" ""]
            ++ fragFramesOf env ++ [mkFrame "done" ""] ∧
      runAppended env uid convId message st = [userMsgOf uid convId message st]) ∨
    (∃ e, env.genError = none ∧ pyStripL (respContent env) ≠ [] ∧
      env.persistError = some e ∧
      runFrames env uid convId message st
        = preOfRun env uid convId message st ++ [mkFrame "thinking_complete" ""]
            ++ fragFramesOf env ++ [mkFrame "error" e, mkFrame "done" ""] ∧
      runAppended env uid convId message st = [userMsgOf uid convId message st]) ∨
    (env.genError = none ∧ pyStripL (respContent env) ≠ [] ∧ env.persistError = none ∧
      runFrames env uid convId message st
        = preOfRun env uid convId message st ++ [mkFrame "thinking_complete" ""]
            ++ fragFramesOf env ++ [mkFrame "done" ""] ∧
      runAppended env uid convId message st
        = [userMsgOf uid convId message st, asstMsgOf env uid convId message st]) := by
  obtain ⟨ge, gt, pe, sb⟩ := env
  have hmsgs := createPhase_msgs uid convId st
  cases ge with
  | some e =>
    refine Or.inl ⟨e, rfl, ?_, ?_⟩
    · simp [runFrames, streamRun, preOfRun, List.append_assoc]
    · simp [runAppended, streamRun, insertMsg, hmsgs, userMsgOf, drop_append_singleton]
  | none =>
    by_cases hstrip : (pyStripL (respContent ⟨none, gt, pe, sb⟩)).isEmpty
    · refine Or.inr (Or.inl ⟨rfl, List.isEmpty_iff.mp hstrip, ?_, ?_⟩)
      · simp [runFrames, streamRun, hstrip, preOfRun, fragFramesOf, List.append_assoc]
      · simp [runAppended, streamRun, hstrip, insertMsg, hmsgs, userMsgOf, drop_append_singleton]
    · have hne : pyStripL (respContent ⟨none, gt, pe, sb⟩) ≠ [] := by
        intro h
        rw [h] at hstrip
        exact hstrip rfl
      cases pe with
      | some e =>
        refine Or.inr (Or.inr (Or.inl ⟨e, rfl, hne, rfl, ?_, ?_⟩))
        · simp [runFrames, streamRun, hstrip, preOfRun, fragFramesOf, List.append_assoc]
        · simp [runAppended, streamRun, hstrip, insertMsg, hmsgs, userMsgOf, drop_append_singleton]
      | none =>
        refine Or.inr (Or.inr (Or.inr ⟨rfl, hne, rfl, ?_, ?_⟩))
        · simp [runFrames, streamRun, hstrip, preOfRun, fragFramesOf, List.append_assoc]
        · simp [runAppended, streamRun, hstrip, insertMsg, hmsgs, userMsgOf, asstMsgOf,
                drop_append_pair]

theorem preOfRun_types (env : Env) (uid : Nat) (convId : Option Nat)
    (message : String) (st : Store) :
    ∀ f ∈ preOfRun env uid convId message st,
      f.type = "metadata" ∨ f.type = "thinking_start" ∨ f.type = "thinking_step" := by
  intro f hf
  simp only [preOfRun, List.mem_append] at hf
  rcases hf with (hf | hf) | hf
  · cases convId with
    | none =>
      simp only [createPhase, List.mem_singleton] at hf
      subst hf
      exact Or.inl rfl
    | some c => simp [createPhase] at hf
  · simp only [List.mem_singleton] at hf
    subst hf
    exact Or.inr (Or.inl rfl)
  · simp only [stepFrames, List.mem_map] at hf
    obtain ⟨s, _, rfl⟩ := hf
    exact Or.inr (Or.inr rfl)

theorem fragFramesOf_types (env : Env) :
    ∀ f ∈ fragFramesOf env, f.type = "response" := by
  intro f hf
  simp only [fragFramesOf, List.mem_map] at hf
  obtain ⟨w, _, rfl⟩ := hf
  rfl

theorem countType_append (a b : List Frame) (t : String) :
    countType (a ++ b) t = countType a t + countType b t := by
  simp [countType, List.filter_append]

theorem countType_zero {fs : List Frame} {t : String}
    (h : ∀ f ∈ fs, f.type ≠ t) : countType fs t = 0 := by
  simp only [countType, List.length_eq_zero]
  rw [List.filter_eq_nil_iff]
  intro f hf
  simp [h f hf]

theorem countType_pre_zero (env : Env) (uid : Nat) (convId : Option Nat)
    (message : String) (st : Store) {t : String}
    (hm : "metadata" ≠ t) (hs : "thinking_start" ≠ t) (hp : "thinking_step" ≠ t) :
    countType (preOfRun env uid convId message st) t = 0 := by
  apply countType_zero
  intro f hf
  rcases preOfRun_types env uid convId message st f hf with h | h | h <;>
    rw [h] <;> assumption

theorem countType_frag_zero (env : Env) {t : String} (hr : "response" ≠ t) :
    countType (fragFramesOf env) t = 0 := by
  apply countType_zero
  intro f hf
  rw [fragFramesOf_types env f hf]
  exact hr

theorem fragContents_of_types {fs : List Frame}
    (h : ∀ f ∈ fs, f.type ≠ "response") : fragContents fs = [] := by
  simp only [fragContents]
  rw [List.filterMap_eq_nil_iff]
  intro f hf
  simp [h f hf]

theorem fragContents_append (a b : List Frame) :
    fragContents (a ++ b) = fragContents a ++ fragContents b := by
  simp [fragContents, List.filterMap_append]

theorem fragContents_fragFrames (env : Env) :
    fragContents (fragFramesOf env)
      = (runWords env).map (fun w => (⟨w ++ [' ']⟩ : String)) := by
  simp only [fragContents, fragFramesOf]
  induction runWords env with
  | nil => rfl
  | cons w ws ih =>
    have hstep : (fun f : Frame => if (f.type == "response") = true then some f.content else none)
        (mkFrame "response" (⟨w ++ [' ']⟩ : String)) = some (⟨w ++ [' ']⟩ : String) := rfl
    simp only [List.map_cons, List.filterMap_cons, hstep, ih]

/-! ## Properties of `str.split()` / `str.strip()` -/

theorem dropWhile_append_of_mem {p : Char → Bool} {l r : List Char}
    (h : ∃ c ∈ l, p c = false) :
    (l ++ r).dropWhile p = l.dropWhile p ++ r := by
  induction l with
  | nil => simp at h
  | cons x xs ih =>
    cases hpx : p x with
    | false => simp [List.dropWhile_cons, hpx]
    | true =>
      have h' : ∃ c ∈ xs, p c = false := by
        rcases h with ⟨c, hc, hcf⟩
        rcases List.mem_cons.mp hc with rfl | hmem
        · rw [hpx] at hcf; cases hcf
        · exact ⟨c, hmem, hcf⟩
      simp [List.dropWhile_cons, hpx, ih h']

theorem dropWhile_eq_self_of {p : Char → Bool} {l : List Char}
    (h : ∀ c ∈ l, p c = false) : l.dropWhile p = l := by
  cases l with
  | nil => rfl
  | cons x xs => simp [List.dropWhile_cons, h x (by simp)]

theorem stripRight_append {l r : List Char} (h : ∃ c ∈ r, isPySpace c = false) :
    stripRight (l ++ r) = l ++ stripRight r := by
  unfold stripRight
  rw [List.reverse_append,
      dropWhile_append_of_mem (by rcases h with ⟨c, hc, hcf⟩; exact ⟨c, List.mem_reverse.mpr hc, hcf⟩),
      List.reverse_append, List.reverse_reverse]

/-- Invariant carried by every word produced by Python's `split()`:
nonempty, and free of whitespace. -/
theorem wordsAux_inv :
    ∀ (l cur : List Char), (∀ c ∈ cur, isPySpace c = false) →
      ∀ w ∈ wordsAux cur l, w ≠ [] ∧ ∀ c ∈ w, isPySpace c = false := by
  intro l
  induction l with
  | nil =>
    intro cur hcur w hw
    unfold wordsAux at hw
    by_cases hce : cur.isEmpty
    · rw [if_pos hce] at hw
      simp at hw
    · rw [if_neg hce, List.mem_singleton] at hw
      subst hw
      constructor
      · simp only [ne_eq, List.reverse_eq_nil_iff]
        intro hnil
        rw [hnil] at hce
        exact hce rfl
      · intro c hc
        exact hcur c (List.mem_reverse.mp hc)
  | cons x xs ih =>
    intro cur hcur w hw
    unfold wordsAux at hw
    by_cases hx : isPySpace x
    · rw [if_pos hx] at hw
      by_cases hce : cur.isEmpty
      · rw [if_pos hce] at hw
        exact ih [] (by simp) w hw
      · rw [if_neg hce, List.mem_cons] at hw
        rcases hw with rfl | hw
        · constructor
          · simp only [ne_eq, List.reverse_eq_nil_iff]
            intro hnil
            rw [hnil] at hce
            exact hce rfl
          · intro c hc
            exact hcur c (List.mem_reverse.mp hc)
        · exact ih [] (by simp) w hw
    · rw [if_neg hx] at hw
      refine ih (x :: cur) ?_ w hw
      intro c hc
      rcases List.mem_cons.mp hc with rfl | hmem
      · exact Bool.eq_false_iff.mpr hx
      · exact hcur c hmem

theorem pyWordsL_inv (l : List Char) :
    ∀ w ∈ pyWordsL l, w ≠ [] ∧ ∀ c ∈ w, isPySpace c = false :=
  wordsAux_inv l [] (by simp)

/-- A whitespace-only (or empty) string splits into no words. -/
theorem pyWordsL_all_space :
    ∀ l : List Char, (∀ c ∈ l, isPySpace c = true) → pyWordsL l = [] := by
  intro l
  induction l with
  | nil => intro _; rfl
  | cons x xs ih =>
    intro h
    have hx : isPySpace x = true := h x (by simp)
    simp only [pyWordsL, wordsAux, hx, if_true, List.isEmpty_nil]
    exact ih (fun c hc => h c (List.mem_cons_of_mem x hc))

/-- Stripping the concatenation `w₁·␠·w₂·␠·…·wₙ·␠` removes exactly the one
trailing space, for nonempty whitespace-free words. -/
theorem strip_flatten {ws : List (List Char)} (hne : ws ≠ [])
    (hinv : ∀ w ∈ ws, w ≠ [] ∧ ∀ c ∈ w, isPySpace c = false) :
    pyStripL ((ws.map (fun w => w ++ [' '])).flatten) ++ [' ']
      = (ws.map (fun w => w ++ [' '])).flatten := by
  have hleft : stripLeft ((ws.map (fun w => w ++ [' '])).flatten)
      = (ws.map (fun w => w ++ [' '])).flatten := by
    cases ws with
    | nil => exact absurd rfl hne
    | cons w rest =>
      obtain ⟨hwne, hwinv⟩ := hinv w (by simp)
      cases w with
      | nil => exact absurd rfl hwne
      | cons c cw =>
        have hc : isPySpace c = false := hwinv c (by simp)
        simp [stripLeft, List.dropWhile_cons, hc]
  unfold pyStripL
  rw [hleft]
  clear hleft
  induction ws with
  | nil => exact absurd rfl hne
  | cons w rest ih =>
    obtain ⟨hwne, hwinv⟩ := hinv w (by simp)
    cases rest with
    | nil =>
      simp only [List.map_cons, List.map_nil, List.flatten_cons, List.flatten_nil,
        List.append_nil]
      unfold stripRight
      rw [List.reverse_append]
      have hrev : ([' '] : List Char).reverse = [' '] := rfl
      rw [hrev]
      have hdw : (([' '] : List Char) ++ w.reverse).dropWhile isPySpace = w.reverse := by
        have hsp : isPySpace ' ' = true := rfl
        simp only [List.cons_append, List.nil_append, List.dropWhile_cons, hsp, if_true]
        exact dropWhile_eq_self_of (fun c hc => hwinv c (List.mem_reverse.mp hc))
      rw [hdw, List.reverse_reverse]
    | cons w2 rest2 =>
      have hrest_ne : (w2 :: rest2 : List (List Char)) ≠ [] := by simp
      have hrest_inv : ∀ u ∈ w2 :: rest2, u ≠ [] ∧ ∀ c ∈ u, isPySpace c = false :=
        fun u hu => hinv u (List.mem_cons_of_mem w hu)
      obtain ⟨hw2ne, hw2inv⟩ := hrest_inv w2 (by simp)
      have hmem : ∃ c ∈ (((w2 :: rest2).map (fun w => w ++ [' '])).flatten),
          isPySpace c = false := by
        cases w2 with
        | nil => exact absurd rfl hw2ne
        | cons c2 cw2 =>
          refine ⟨c2, ?_, hw2inv c2 (by simp)⟩
          simp
      rw [List.map_cons, List.flatten_cons, stripRight_append hmem, List.append_assoc,
        ih hrest_ne hrest_inv]

/-- With at least one word, the stripped concatenation is nonempty. -/
theorem strip_flatten_ne_nil {ws : List (List Char)} (hne : ws ≠ [])
    (hinv : ∀ w ∈ ws, w ≠ [] ∧ ∀ c ∈ w, isPySpace c = false) :
    pyStripL ((ws.map (fun w => w ++ [' '])).flatten) ≠ [] := by
  intro hnil
  have hW := strip_flatten hne hinv
  rw [hnil, List.nil_append] at hW
  cases ws with
  | nil => exact absurd rfl hne
  | cons w rest =>
    obtain ⟨hwne, _⟩ := hinv w (by simp)
    cases w with
    | nil => exact absurd rfl hwne
    | cons c cw =>
      have hlen := congrArg List.length hW
      simp [List.length_append] at hlen

/-- Success-path shape: no generation error, no persistence error, at least
one word — the run emits the full frame sequence and appends the user
message followed by one assistant message. -/
theorem run_ok (env : Env) (uid : Nat) (convId : Option Nat) (message : String)
    (st : Store) (h1 : env.genError = none) (h2 : env.persistError = none)
    (h3 : runWords env ≠ []) :
    runFrames env uid convId message st
      = preOfRun env uid convId message st ++ [mkFrame "thinking_complete" ""]
          ++ fragFramesOf env ++ [mkFrame "done" ""] ∧
    runAppended env uid convId message st
      = [userMsgOf uid convId message st, asstMsgOf env uid convId message st] := by
  have hinv : ∀ w ∈ runWords env, w ≠ [] ∧ ∀ c ∈ w, isPySpace c = false :=
    pyWordsL_inv env.genText.data
  have hsne : pyStripL (respContent env) ≠ [] := by
    unfold respContent
    exact strip_flatten_ne_nil h3 hinv
  rcases run_shape env uid convId message st with
    ⟨e, he, _, _⟩ | ⟨_, hs, _, _⟩ | ⟨e, _, _, hp, _, _⟩ | ⟨_, _, _, hf, ha⟩
  · rw [h1] at he; cases he
  · exact absurd hs hsne
  · rw [h2] at hp; cases hp
  · exact ⟨hf, ha⟩

/-- No frame before the terminal sentinel block is an error or done frame. -/
theorem preBody_noterm (env : Env) (uid : Nat) (convId : Option Nat)
    (message : String) (st : Store) :
    ∀ f ∈ preOfRun env uid convId message st ++ [mkFrame "thinking_complete" ""]
        ++ fragFramesOf env, f.type ≠ "error" ∧ f.type ≠ "done" := by
  intro f hf
  rcases List.mem_append.mp hf with hf | hf
  · rcases List.mem_append.mp hf with hf | hf
    · rcases preOfRun_types env uid convId message st f hf with h | h | h <;>
        rw [h] <;> exact ⟨by decide, by decide⟩
    · rw [List.mem_singleton] at hf
      subst hf
      exact ⟨by decide, by decide⟩
  · rw [fragFramesOf_types env f hf]
    exact ⟨by decide, by decide⟩

theorem preBody_no_response (env : Env) (uid : Nat) (convId : Option Nat)
    (message : String) (st : Store) :
    ∀ f ∈ preOfRun env uid convId message st ++ [mkFrame "thinking_complete" ""],
      f.type ≠ "response" := by
  intro f hf
  rcases List.mem_append.mp hf with hf | hf
  · rcases preOfRun_types env uid convId message st f hf with h | h | h <;>
      rw [h] <;> decide
  · rw [List.mem_singleton] at hf
    subst hf
    decide

theorem fragContents_run (env : Env) (pre tail : List Frame)
    (hpre : ∀ f ∈ pre, f.type ≠ "response") (htail : ∀ f ∈ tail, f.type ≠ "response") :
    fragContents (pre ++ fragFramesOf env ++ tail)
      = (runWords env).map (fun w => (⟨w ++ [' ']⟩ : String)) := by
  rw [fragContents_append, fragContents_append, fragContents_of_types hpre,
    fragContents_of_types htail, fragContents_fragFrames]
  simp

theorem strConcat_frag (env : Env) :
    strConcat ((runWords env).map (fun w => (⟨w ++ [' ']⟩ : String)))
      = ⟨respContent env⟩ := by
  simp only [strConcat, respContent, List.map_map]
  have h : (String.data ∘ fun w : List Char => (⟨w ++ [' ']⟩ : String))
      = fun w : List Char => w ++ [' '] := by
    funext w
    rfl
  rw [h]

theorem mk_append (a b : List Char) :
    (⟨a⟩ : String) ++ (⟨b⟩ : String) = ⟨a ++ b⟩ := rfl

/-! ## Interleaving model for concurrent requests

`generate()` holds no lock: its two message inserts (`chat_streaming.py`
lines 149-155 and 238-243) are separate committed statements with yields and
sleeps between them, and the only shared registry (`sessions` in
`backend/app.py` lines 70-73) is a bare dict with no mutex.  Two concurrent
streaming requests on one conversation may therefore have their append
steps scheduled in any interleaved order; `shuffles` enumerates those
orders.  The fuel argument only makes the recursion structural; it is
always sufficient. -/

def shufflesF {α : Type} : Nat → List α → List α → List (List α)
  | 0, xs, ys => [xs ++ ys]
  | _ + 1, [], ys => [ys]
  | _ + 1, x :: xs, [] => [x :: xs]
  | n + 1, x :: xs, y :: ys =>
    ((shufflesF n xs (y :: ys)).map (fun l => x :: l)) ++
    ((shufflesF n (x :: xs) ys).map (fun l => y :: l))

/-- All interleavings of two op sequences that preserve each sequence's own
order. -/
def shuffles {α : Type} (xs ys : List α) : List (List α) :=
  shufflesF (xs.length + ys.length) xs ys

/-- One message-append step performed by request `req`. -/
structure WriteOp where
  req : Nat
  role : String
  deriving DecidableEq, Repr

/-- The append steps one streaming request performs, in program order: the
user insert, then (after generation and word streaming) the assistant
insert. -/
def reqOps (r : Nat) : List WriteOp := [⟨r, "user"⟩, ⟨r, "assistant"⟩]

/-! ## Claims about the streaming session controller -/

/-- C4 (amended): every stream — regardless of generation outcome,
emptiness, or persistence failure — ends with exactly one `done` sentinel
frame as its final frame, and no `done` or `error` frame occurs earlier
except that a single `error` frame, when present, immediately precedes the
final `done`.  The claim as stated (nothing follows an `error` frame) fails:
the `finally` block always emits the `done` sentinel after an error. -/
theorem C4_stream_ends_with_single_done (env : Env) (uid : Nat)
    (convId : Option Nat) (message : String) (st : Store) :
    ∃ A, (∀ f ∈ A, f.type ≠ "error" ∧ f.type ≠ "done") ∧
      (runFrames env uid convId message st = A ++ [mkFrame "done" ""] ∨
       ∃ e, runFrames env uid convId message st
              = A ++ [mkFrame "error" e, mkFrame "done" ""]) := by
  have hnt := preBody_noterm env uid convId message st
  rcases run_shape env uid convId message st with
    ⟨e, _, hf, _⟩ | ⟨_, _, hf, _⟩ | ⟨e, _, _, _, hf, _⟩ | ⟨_, _, _, hf, _⟩
  · refine ⟨preOfRun env uid convId message st, ?_, Or.inr ⟨e, hf⟩⟩
    intro f hf'
    exact hnt f (List.mem_append_left _ (List.mem_append_left _ hf'))
  · exact ⟨_, hnt, Or.inl hf⟩
  · exact ⟨_, hnt, Or.inr ⟨e, hf⟩⟩
  · exact ⟨_, hnt, Or.inl hf⟩

/-- With all frames of `A` neither error nor done, `A` holds no error
frame. -/
theorem countType_noterm_zero {A : List Frame}
    (h : ∀ f ∈ A, f.type ≠ "error" ∧ f.type ≠ "done") :
    countType A "error" = 0 :=
  countType_zero (fun f hf => (h f hf).1)

theorem countType_err_done (e : String) :
    countType [mkFrame "error" e, mkFrame "done" ""] "error" = 1 := by
  have h1 : ((mkFrame "error" e).type == "error") = true := rfl
  have h2 : (((mkFrame "done" "") : Frame).type == "error") = false := rfl
  simp [countType, List.filter_cons, h1, h2]

theorem countType_done_err :
    countType [mkFrame "done" ""] "error" = 0 := by
  have h2 : (((mkFrame "done" "") : Frame).type == "error") = false := rfl
  simp [countType, List.filter_cons, h2]

theorem countType_tc_err :
    countType [mkFrame "thinking_complete" ""] "error" = 0 := by
  have h : (((mkFrame "thinking_complete" "") : Frame).type == "error") = false := rfl
  simp [countType, List.filter_cons, h]

theorem filter_user_nil (uid : Nat) (convId : Option Nat) (message : String)
    (st : Store) :
    ([userMsgOf uid convId message st] : List Message).filter
      (fun m => m.role == "assistant") = [] := by
  have h : ((userMsgOf uid convId message st).role == "assistant") = false := rfl
  simp [List.filter_cons, h]

theorem filter_user_asst (env : Env) (uid : Nat) (convId : Option Nat)
    (message : String) (st : Store) :
    ([userMsgOf uid convId message st, asstMsgOf env uid convId message st]
        : List Message).filter (fun m => m.role == "assistant")
      = [asstMsgOf env uid convId message st] := by
  have h1 : ((userMsgOf uid convId message st).role == "assistant") = false := rfl
  have h2 : ((asstMsgOf env uid convId message st).role == "assistant") = true := rfl
  simp [List.filter_cons, h1, h2]

/-- C5: on any modelled failure (generation error; persistence error), the
stream carries exactly one error frame and no assistant message is
appended; an assistant append happens only on the error-free path, as one
single append whose content is the full response text — the stripped
concatenation of all emitted response fragments. -/
theorem C5_error_terminates_without_append (env : Env) (uid : Nat)
    (convId : Option Nat) (message : String) (st : Store) :
    countType (runFrames env uid convId message st) "error" ≤ 1 ∧
    (env.genError.isSome = true →
      countType (runFrames env uid convId message st) "error" = 1 ∧
      (runAppended env uid convId message st).filter
        (fun m => m.role == "assistant") = []) ∧
    (1 ≤ countType (runFrames env uid convId message st) "error" →
      (runAppended env uid convId message st).filter
        (fun m => m.role == "assistant") = []) ∧
    ((runAppended env uid convId message st).filter
        (fun m => m.role == "assistant")).length ≤ 1 ∧
    (∀ m ∈ runAppended env uid convId message st, m.role = "assistant" →
      m.content
        = pyStrip (strConcat (fragContents (runFrames env uid convId message st)))) := by
  have hpre0 : countType (preOfRun env uid convId message st) "error" = 0 :=
    countType_pre_zero env uid convId message st (by decide) (by decide) (by decide)
  have hfr0 : countType (fragFramesOf env) "error" = 0 :=
    countType_frag_zero env (by decide)
  rcases run_shape env uid convId message st with
    ⟨e, hge, hf, ha⟩ | ⟨hge, _, hf, ha⟩ | ⟨e, hge, _, hpe, hf, ha⟩ | ⟨hge, _, hpe, hf, ha⟩
  · -- generation error
    have hcount : countType (runFrames env uid convId message st) "error" = 1 := by
      rw [hf, countType_append, hpre0, countType_err_done]
    have hfil : (runAppended env uid convId message st).filter
        (fun m => m.role == "assistant") = [] := by
      rw [ha]; exact filter_user_nil uid convId message st
    refine ⟨by rw [hcount], fun _ => ⟨hcount, hfil⟩, fun _ => hfil, ?_, ?_⟩
    · rw [hfil]; simp
    · intro m hm hrole
      rw [ha, List.mem_singleton] at hm
      subst hm
      have hur : (userMsgOf uid convId message st).role = "user" := rfl
      rw [hur] at hrole
      exact absurd hrole (by decide)
  · -- blank cleaned response: no error frame, only the user append
    have hcount : countType (runFrames env uid convId message st) "error" = 0 := by
      rw [hf, countType_append, countType_append, countType_append, hpre0,
        countType_tc_err, hfr0, countType_done_err]
    have hfil : (runAppended env uid convId message st).filter
        (fun m => m.role == "assistant") = [] := by
      rw [ha]; exact filter_user_nil uid convId message st
    refine ⟨by rw [hcount]; decide, ?_, ?_, ?_, ?_⟩
    · intro h
      rw [hge] at h
      exact absurd h (by decide)
    · intro _; exact hfil
    · rw [hfil]; simp
    · intro m hm hrole
      rw [ha, List.mem_singleton] at hm
      subst hm
      have hur : (userMsgOf uid convId message st).role = "user" := rfl
      rw [hur] at hrole
      exact absurd hrole (by decide)
  · -- persistence error
    have hcount : countType (runFrames env uid convId message st) "error" = 1 := by
      rw [hf, countType_append, countType_append, countType_append, hpre0,
        countType_tc_err, hfr0, countType_err_done]
    have hfil : (runAppended env uid convId message st).filter
        (fun m => m.role == "assistant") = [] := by
      rw [ha]; exact filter_user_nil uid convId message st
    refine ⟨by rw [hcount], fun _ => ⟨hcount, hfil⟩, fun _ => hfil, ?_, ?_⟩
    · rw [hfil]; simp
    · intro m hm hrole
      rw [ha, List.mem_singleton] at hm
      subst hm
      have hur : (userMsgOf uid convId message st).role = "user" := rfl
      rw [hur] at hrole
      exact absurd hrole (by decide)
  · -- success: exactly one assistant append carrying the full text
    have hcount : countType (runFrames env uid convId message st) "error" = 0 := by
      rw [hf, countType_append, countType_append, countType_append, hpre0,
        countType_tc_err, hfr0, countType_done_err]
    have hfil : (runAppended env uid convId message st).filter
        (fun m => m.role == "assistant") = [asstMsgOf env uid convId message st] := by
      rw [ha]; exact filter_user_asst env uid convId message st
    have hfcr : fragContents (runFrames env uid convId message st)
        = (runWords env).map (fun w => (⟨w ++ [' ']⟩ : String)) := by
      rw [hf]
      exact fragContents_run env
        (preOfRun env uid convId message st ++ [mkFrame "thinking_complete" ""])
        [mkFrame "done" ""]
        (preBody_no_response env uid convId message st)
        (by intro f hf'; rw [List.mem_singleton] at hf'; subst hf'; decide)
    refine ⟨by rw [hcount]; decide, ?_, ?_, ?_, ?_⟩
    · intro h
      rw [hge] at h
      exact absurd h (by decide)
    · intro h
      rw [hcount] at h
      exact absurd h (by decide)
    · rw [hfil]; simp
    · intro m hm hrole
      rw [ha, List.mem_cons] at hm
      rcases hm with rfl | hm
      · have hur : (userMsgOf uid convId message st).role = "user" := rfl
        rw [hur] at hrole
        exact absurd hrole (by decide)
      · rw [List.mem_singleton] at hm
        subst hm
        rw [hfcr, strConcat_frag]
        rfl

/-- C2 (amended): on the success path exactly one assistant message is
persisted, its content is the concatenation of all response-fragment
contents stripped of trailing whitespace, and the raw concatenation equals
the persisted text plus exactly one trailing space (added by the word loop
and removed again by `.strip()` before the INSERT).  The claim as stated —
concatenation equals the persisted text with no extra characters — fails by
that one space. -/
theorem C2_fragment_concat_trailing_space (env : Env) (uid : Nat)
    (convId : Option Nat) (message : String) (st : Store)
    (h1 : env.genError = none) (h2 : env.persistError = none)
    (h3 : runWords env ≠ []) :
    ((runAppended env uid convId message st).filter
        (fun m => m.role == "assistant")).map Message.content
      = [pyStrip (strConcat (fragContents (runFrames env uid convId message st)))] ∧
    strConcat (fragContents (runFrames env uid convId message st))
      = pyStrip (strConcat (fragContents (runFrames env uid convId message st))) ++ " " := by
  obtain ⟨hf, ha⟩ := run_ok env uid convId message st h1 h2 h3
  have hfcr : fragContents (runFrames env uid convId message st)
      = (runWords env).map (fun w => (⟨w ++ [' ']⟩ : String)) := by
    rw [hf]
    exact fragContents_run env
      (preOfRun env uid convId message st ++ [mkFrame "thinking_complete" ""])
      [mkFrame "done" ""]
      (preBody_no_response env uid convId message st)
      (by intro f hf'; rw [List.mem_singleton] at hf'; subst hf'; decide)
  have hsc : strConcat (fragContents (runFrames env uid convId message st))
      = ⟨respContent env⟩ := by
    rw [hfcr, strConcat_frag]
  have hps : pyStrip (⟨respContent env⟩ : String)
      = ⟨pyStripL (respContent env)⟩ := rfl
  have hW : pyStripL (respContent env) ++ [' '] = respContent env := by
    unfold respContent
    exact strip_flatten h3 (pyWordsL_inv env.genText.data)
  constructor
  · rw [ha, filter_user_asst, hsc, hps]
    rfl
  · rw [hsc, hps]
    rw [show (" " : String) = (⟨[' ']⟩ : String) from rfl, mk_append]
    exact congrArg String.mk hW.symm

/-- C10: when the cleaned generated response is empty or whitespace-only
and generation raised no error, the stream emits no response fragment and
no error frame, emits `thinking_complete` and exactly one terminal `done`
sentinel as its last frame, and appends only the user message for that
turn. -/
theorem C10_blank_response_clean_done (env : Env) (uid : Nat)
    (convId : Option Nat) (message : String) (st : Store)
    (h1 : env.genError = none) (h2 : env.genText.data.all isPySpace = true) :
    countType (runFrames env uid convId message st) "response" = 0 ∧
    countType (runFrames env uid convId message st) "error" = 0 ∧
    countType (runFrames env uid convId message st) "thinking_complete" = 1 ∧
    countType (runFrames env uid convId message st) "done" = 1 ∧
    (runFrames env uid convId message st).getLast? = some (mkFrame "done" "") ∧
    (runAppended env uid convId message st).map Message.role = ["user"] := by
  have hws : runWords env = [] := by
    unfold runWords
    exact pyWordsL_all_space env.genText.data
      (fun c hc => List.all_eq_true.mp h2 c hc)
  have hfr : fragFramesOf env = [] := by
    unfold fragFramesOf
    rw [hws]
    rfl
  have hresp : respContent env = [] := by
    unfold respContent
    rw [hws]
    rfl
  have hstrip : pyStripL (respContent env) = [] := by
    rw [hresp]
    rfl
  rcases run_shape env uid convId message st with
    ⟨e, hge, _, _⟩ | ⟨_, _, hf, ha⟩ | ⟨e, _, hne, _, _, _⟩ | ⟨_, hne, _, _, _⟩
  · rw [h1] at hge; cases hge
  · have hpre := fun t hm hs hp =>
      countType_pre_zero env uid convId message st (t := t) hm hs hp
    refine ⟨?_, ?_, ?_, ?_, ?_, ?_⟩
    · rw [hf, countType_append, countType_append, countType_append,
        hpre "response" (by decide) (by decide) (by decide), hfr]
      decide
    · rw [hf, countType_append, countType_append, countType_append,
        hpre "error" (by decide) (by decide) (by decide), hfr]
      decide
    · rw [hf, countType_append, countType_append, countType_append,
        hpre "thinking_complete" (by decide) (by decide) (by decide), hfr]
      decide
    · rw [hf, countType_append, countType_append, countType_append,
        hpre "done" (by decide) (by decide) (by decide), hfr]
      decide
    · rw [hf]
      exact List.getLast?_concat _
    · rw [ha]
      rfl
  · exact absurd hstrip hne
  · exact absurd hstrip hne

/-- C7 (amended): each streaming request appends, in its own program order,
one user message then one assistant message, so across every schedulable
interleaving of two concurrent requests the store gains exactly two user
and two assistant messages; but nothing serializes the two requests, so the
interleaving need not keep either request's pair contiguous nor in arrival
order. -/
theorem C7_append_counts_all_interleavings :
    (∀ (env : Env) (uid : Nat) (convId : Option Nat) (message : String) (st : Store),
      env.genError = none → env.persistError = none → runWords env ≠ [] →
      (runAppended env uid convId message st).map Message.role
        = ["user", "assistant"]) ∧
    (∀ l ∈ shuffles (reqOps 1) (reqOps 2),
      (l.filter (fun o => o.role == "user")).length = 2 ∧
      (l.filter (fun o => o.role == "assistant")).length = 2) := by
  constructor
  · intro env uid convId message st h1 h2 h3
    obtain ⟨_, ha⟩ := run_ok env uid convId message st h1 h2 h3
    rw [ha]
    rfl
  · decide

/-- C1: the claim requires a streaming send-message request naming a
conversation owned by another user to fail with an authorization error
before any stream starts.  The `/stream` route performs no ownership check:
with conversation 1 owned by user 1 and caller user 2, the run emits a full
stream (a `thinking_start` frame, no `error` frame) and appends both a user
and an assistant message to the other user's conversation.  (The ownership
check exists only on the read endpoint `get_conversation` in
`backend/app.py`.) -/
theorem C1_stream_chat_skips_ownership_check :
    ((⟨[⟨1, 1, "T", 0, 0⟩], [], 2, 5⟩ : Store).convs.map Conv.user_id = [1]) ∧
    countType (runFrames ⟨none, "ok", none, 1⟩ 2 (some 1) "hi"
      ⟨[⟨1, 1, "T", 0, 0⟩], [], 2, 5⟩) "thinking_start" = 1 ∧
    countType (runFrames ⟨none, "ok", none, 1⟩ 2 (some 1) "hi"
      ⟨[⟨1, 1, "T", 0, 0⟩], [], 2, 5⟩) "error" = 0 ∧
    (streamRun ⟨none, "ok", none, 1⟩ 2 (some 1) "hi"
      ⟨[⟨1, 1, "T", 0, 0⟩], [], 2, 5⟩).store.msgs.map
        (fun m => (m.conversation_id, m.role)) = [(1, "user"), (1, "assistant")] := by
  decide

/-- C6: the claim requires every message append to update the owning
conversation's `updated_at`.  `Conversation.add_message` does (final two
conjuncts: message stamped 10, conversation touched to 11), but the
streaming route's raw inserts do not: after a streamed exchange the
messages carry timestamps 10 and 11 while the conversation's `updated_at`
stays at its old value 5. -/
theorem C6_stream_append_skips_touch :
    ((streamRun ⟨none, "ok", none, 1⟩ 1 (some 1) "hi"
        ⟨[⟨1, 1, "T", 0, 5⟩], [], 2, 10⟩).store.convs.map Conv.updated_at = [5]) ∧
    ((streamRun ⟨none, "ok", none, 1⟩ 1 (some 1) "hi"
        ⟨[⟨1, 1, "T", 0, 5⟩], [], 2, 10⟩).store.msgs.map Message.created_at
      = [10, 11]) ∧
    ((5 : Nat) < 10) ∧
    ((add_message ⟨[⟨1, 1, "T", 0, 5⟩], [], 2, 10⟩ 1 "user" "hi").convs.map
        Conv.updated_at = [11]) ∧
    ((add_message ⟨[⟨1, 1, "T", 0, 5⟩], [], 2, 10⟩ 1 "user" "hi").msgs.map
        Message.created_at = [10]) := by
  decide

/-- C2 counterexample: for the generated text `hi` the single emitted
fragment is `"hi "` but the persisted assistant content is `"hi"` — the
concatenation of fragment contents is not exactly the persisted text. -/
theorem C2_fragment_concat_counterexample :
    fragContents (runFrames ⟨none, "hi", none, 1⟩ 1 (some 1) "q" ⟨[], [], 1, 0⟩)
      = ["hi "] ∧
    strConcat ["hi "] = "hi " ∧
    ((runAppended ⟨none, "hi", none, 1⟩ 1 (some 1) "q" ⟨[], [], 1, 0⟩).filter
        (fun m => m.role == "assistant")).map Message.content = ["hi"] ∧
    ("hi " : String) ≠ "hi" := by
  decide

/-- C4 counterexample: on a generation error the stream is
`[thinking_start, thinking_step, error, done]` — the `done` sentinel frame
follows the `error` frame, so a frame is emitted after an `error`,
contradicting the claim as stated. -/
theorem C4_error_frame_followed_by_done :
    runFrames ⟨some "boom", "", none, 1⟩ 1 (some 1) "hi" ⟨[], [], 1, 0⟩
      = [mkFrame "thinking_start" "",
         mkFrame "thinking_step" "Processing your question",
         mkFrame "error" "boom", mkFrame "done" ""] ∧
    (runFrames ⟨some "boom", "", none, 1⟩ 1 (some 1) "hi" ⟨[], [], 1, 0⟩).drop 2
      = [mkFrame "error" "boom", mkFrame "done" ""] := by
  decide

/-- C7 counterexample: with no lock serializing the append phase, the
schedule `1:user, 2:user, 2:assistant, 1:assistant` is a legal interleaving
of the two requests' append steps, and it is neither `reqOps 1 ++ reqOps 2`
nor `reqOps 2 ++ reqOps 1`: the writes interleave and the first-arrived
request's assistant message lands last. -/
theorem C7_unserialized_interleaving :
    ([⟨1, "user"⟩, ⟨2, "user"⟩, ⟨2, "assistant"⟩, ⟨1, "assistant"⟩] : List WriteOp)
      ∈ shuffles (reqOps 1) (reqOps 2) ∧
    ([⟨1, "user"⟩, ⟨2, "user"⟩, ⟨2, "assistant"⟩, ⟨1, "assistant"⟩] : List WriteOp)
      ≠ reqOps 1 ++ reqOps 2 ∧
    ([⟨1, "user"⟩, ⟨2, "user"⟩, ⟨2, "assistant"⟩, ⟨1, "assistant"⟩] : List WriteOp)
      ≠ reqOps 2 ++ reqOps 1 := by
  decide

/-- Witness for C2: the amended fragment/persistence relation evaluated on
a concrete successful run. -/
theorem C2_fragment_concat_witness :
    ((runAppended ⟨none, "ok", none, 1⟩ 1 (some 1) "q" ⟨[], [], 1, 0⟩).filter
        (fun m => m.role == "assistant")).map Message.content
      = [pyStrip (strConcat (fragContents
          (runFrames ⟨none, "ok", none, 1⟩ 1 (some 1) "q" ⟨[], [], 1, 0⟩)))] ∧
    strConcat (fragContents (runFrames ⟨none, "ok", none, 1⟩ 1 (some 1) "q"
        ⟨[], [], 1, 0⟩))
      = pyStrip (strConcat (fragContents
          (runFrames ⟨none, "ok", none, 1⟩ 1 (some 1) "q" ⟨[], [], 1, 0⟩))) ++ " " :=
  C2_fragment_concat_trailing_space ⟨none, "ok", none, 1⟩ 1 (some 1) "q"
    ⟨[], [], 1, 0⟩ rfl rfl (by decide)

/-- Witness for C5: on a concrete generation error the run has exactly one
error frame and no assistant append. -/
theorem C5_error_witness :
    countType (runFrames ⟨some "boom", "", none, 1⟩ 1 (some 1) "hi"
      ⟨[], [], 1, 0⟩) "error" = 1 ∧
    (runAppended ⟨some "boom", "", none, 1⟩ 1 (some 1) "hi"
      ⟨[], [], 1, 0⟩).filter (fun m => m.role == "assistant") = [] :=
  (C5_error_terminates_without_append ⟨some "boom", "", none, 1⟩ 1 (some 1) "hi"
    ⟨[], [], 1, 0⟩).2.1 rfl

/-- Witness for C7: a concrete run appends user then assistant, and a
concrete serialized interleaving has two user appends. -/
theorem C7_append_counts_witness :
    (runAppended ⟨none, "ok", none, 1⟩ 1 (some 1) "q" ⟨[], [], 1, 0⟩).map
      Message.role = ["user", "assistant"] ∧
    ((([⟨1, "user"⟩, ⟨1, "assistant"⟩, ⟨2, "user"⟩, ⟨2, "assistant"⟩]
        : List WriteOp)).filter (fun o => o.role == "user")).length = 2 :=
  ⟨C7_append_counts_all_interleavings.1 ⟨none, "ok", none, 1⟩ 1 (some 1) "q"
      ⟨[], [], 1, 0⟩ rfl rfl (by decide),
   (C7_append_counts_all_interleavings.2 _ (by decide)).1⟩

/-- Witness for C10: a whitespace-only generated text on a concrete run. -/
theorem C10_blank_response_witness :
    countType (runFrames ⟨none, "  ", none, 1⟩ 1 (some 1) "hi"
      ⟨[], [], 1, 0⟩) "response" = 0 ∧
    countType (runFrames ⟨none, "  ", none, 1⟩ 1 (some 1) "hi"
      ⟨[], [], 1, 0⟩) "error" = 0 ∧
    countType (runFrames ⟨none, "  ", none, 1⟩ 1 (some 1) "hi"
      ⟨[], [], 1, 0⟩) "thinking_complete" = 1 ∧
    countType (runFrames ⟨none, "  ", none, 1⟩ 1 (some 1) "hi"
      ⟨[], [], 1, 0⟩) "done" = 1 ∧
    (runFrames ⟨none, "  ", none, 1⟩ 1 (some 1) "hi"
      ⟨[], [], 1, 0⟩).getLast? = some (mkFrame "done" "") ∧
    (runAppended ⟨none, "  ", none, 1⟩ 1 (some 1) "hi"
      ⟨[], [], 1, 0⟩).map Message.role = ["user"] :=
  C10_blank_response_clean_done ⟨none, "  ", none, 1⟩ 1 (some 1) "hi"
    ⟨[], [], 1, 0⟩ rfl (by decide)
